import Mathlib

/-!
# Verification of the JobMatchAI matching and ranking core

A shallow embedding of the job-to-résumé matching pipeline
(`backend/agents/job_matcher.py`) and the ranking/filter engine
(`backend/agents/job_ranker.py`), with theorems checking the
specification's claims about them.

Conventions of the embedding:
* Python strings are `String`, processed as `List Char` after `.lower()`
  (`lowerChars`); Python's substring test `a in b` is `containsChars`.
* Python numbers are `ℚ` (scores) and `Int`/`Nat` (years, timestamps);
  `round(x, 1)` is `roundTo1` (round half to even, as Python's `round`).
* The regular-expression scans of the extractors are compiled by hand into
  fuel-indexed scanners that follow `re.findall` / `re.search` semantics
  (leftmost match, non-overlapping continuation, lazy `.*?` not crossing
  newlines, ordered alternation).
* The scikit-learn TF-IDF vectorization is external to the repository; it
  enters as an oracle `sim : String → String → Option ℚ` (`none` models a
  raised exception, `some c` a computed cosine similarity).
* Python date parsing enters as an oracle `parse : String → Option Int`
  (`none` models "no format matched"); timestamps are integers in days.
* Python's stable in-place `list.sort(key=..., reverse=True)` is modelled
  by the stable descending insertion sort `sortDesc`.
* Python heap aliasing (which list object a sort mutates) is modelled by an
  explicit heap `List (List Job)` with `readH`/`writeH`.
-/

set_option allowUnsafeReducibility true
set_option maxRecDepth 4000

attribute [semireducible] Rat.add Rat.mul Rat.inv Rat.sub Rat.ofScientific

namespace JobMatch

/-! ## Basic text utilities -/

/-- Python's `str.lower()` on the character list of a string. -/
def lowerChars (s : String) : List Char := s.data.map Char.toLower

/-- Boolean list-prefix test. -/
def isPrefixOfChars : List Char → List Char → Bool
  | [], _ => true
  | _ :: _, [] => false
  | a :: as, b :: bs => a == b && isPrefixOfChars as bs

/-- Python's substring test `need in hay`. -/
def containsChars (need : List Char) : List Char → Bool
  | [] => need.isEmpty
  | hay@(_ :: tl) => isPrefixOfChars need hay || containsChars need tl

/-- Python's `\s` class (ASCII). -/
def isPySpace (c : Char) : Bool :=
  c == ' ' || c == '\t' || c == '\n' || c == '\r' || c == (Char.ofNat 11) || c == (Char.ofNat 12)

/-- Maximal digit prefix of a character list, with the remainder. -/
def takeDigits : List Char → List Char × List Char
  | [] => ([], [])
  | c :: tl =>
    if c.isDigit then
      let p := takeDigits tl
      (c :: p.1, p.2)
    else ([], c :: tl)

/-- Numeric value of a digit string (Python `int`). -/
def digitsToNat (ds : List Char) : Nat :=
  ds.foldl (fun n c => n * 10 + (c.toNat - 48)) 0

/-- Consume `\s*` (maximal run of whitespace). -/
def skipSpaces (l : List Char) : List Char := l.dropWhile (fun c => isPySpace c)

/-- Consume `\+?`. -/
def dropPlus : List Char → List Char
  | '+' :: tl => tl
  | l => l

/-- Consume the optional `s` of `years?`. -/
def dropOptS : List Char → List Char
  | 's' :: tl => tl
  | l => l

/-- Match a literal, returning the remainder. -/
def matchLit (lit : List Char) (l : List Char) : Option (List Char) :=
  if isPrefixOfChars lit l then some (l.drop lit.length) else none

def litYear : List Char := ("year").data
def litExperience : List Char := ("experience").data
def litExp : List Char := ("exp").data
def litOf : List Char := ("of").data
def litIn : List Char := ("in").data
def litWith : List Char := ("with").data
def litRequired : List Char := ("required").data
def litNeeded : List Char := ("needed").data
def litMinimum : List Char := ("minimum").data
def litPresent : List Char := ("present").data
def litCurrent : List Char := ("current").data

/-! ## Hand-compiled regex matchers

`job_matcher.py` uses three regex families:
pattern A `(\d+)\+?\s*years?\s*(?:of\s*)?(?:experience|exp)`,
pattern B `(?:experience|exp).*?(\d+)\+?\s*years?`,
pattern C `(\d{4})\s*[-–]\s*(\d{4}|present|current)`,
and for required years additionally
pattern R1 `(\d+)\+?\s*years?\s*(?:of\s*)?(?:experience|exp).*?(?:required|needed|minimum)`,
pattern R2 `(?:required|needed|minimum).*?(\d+)\+?\s*years?`,
pattern R3 `(\d+)\+?\s*years?\s*(?:in|of|with)`. -/

/-- Remainders after `(?:experience|exp)`, in alternation order. -/
def expBranches (r : List Char) : List (List Char) :=
  (match matchLit litExperience r with | some r2 => [r2] | none => []) ++
  (match matchLit litExp r with | some r2 => [r2] | none => [])

/-- Remainders after `(?:of\s*)?(?:experience|exp)`, in backtracking order
(greedy optional `of` first). -/
def afterYearsExp (r : List Char) : List (List Char) :=
  (match matchLit litOf r with
   | some r2 => expBranches (skipSpaces r2)
   | none => []) ++ expBranches r

/-- Pattern A at the current position: capture and remainder after the match. -/
def matchYearsOfExpAt (l : List Char) : Option (Nat × List Char) :=
  let p := takeDigits l
  if p.1.isEmpty then none
  else
    match matchLit litYear (skipSpaces (dropPlus p.2)) with
    | none => none
    | some r4 =>
      match afterYearsExp (skipSpaces (dropOptS r4)) with
      | rEnd :: _ => some (digitsToNat p.1, rEnd)
      | [] => none

/-- `re.findall` for pattern A: leftmost, non-overlapping. -/
def findAllYearsOfExp : Nat → List Char → List Nat
  | 0, _ => []
  | _ + 1, [] => []
  | fuel + 1, l@(_ :: tl) =>
    match matchYearsOfExpAt l with
    | some (n, rest) => n :: findAllYearsOfExp fuel rest
    | none => findAllYearsOfExp fuel tl

/-- `(\d+)\+?\s*years?` at the current position: capture and remainder. -/
def matchDigitsYears (l : List Char) : Option (Nat × List Char) :=
  let p := takeDigits l
  if p.1.isEmpty then none
  else
    match matchLit litYear (skipSpaces (dropPlus p.2)) with
    | none => none
    | some r4 => some (digitsToNat p.1, dropOptS r4)

/-- Lazy `.*?(\d+)\+?\s*years?`: earliest position (not crossing a newline,
since `.` does not match `\n`) where the digits-years tail matches. -/
def lazyFindDigitsYears : Nat → List Char → Option (Nat × List Char)
  | 0, _ => none
  | _ + 1, [] => none
  | fuel + 1, l@(c :: tl) =>
    match matchDigitsYears l with
    | some res => some res
    | none => if c == '\n' then none else lazyFindDigitsYears fuel tl

/-- Pattern B at the current position. -/
def matchExpYearsAt (l : List Char) : Option (Nat × List Char) :=
  match matchLit litExperience l with
  | some r =>
    (match lazyFindDigitsYears r.length r with
     | some res => some res
     | none =>
       match matchLit litExp l with
       | some r2 => lazyFindDigitsYears r2.length r2
       | none => none)
  | none =>
    match matchLit litExp l with
    | some r2 => lazyFindDigitsYears r2.length r2
    | none => none

/-- `re.findall` for pattern B. -/
def findAllExpYears : Nat → List Char → List Nat
  | 0, _ => []
  | _ + 1, [] => []
  | fuel + 1, l@(_ :: tl) =>
    match matchExpYearsAt l with
    | some (n, rest) => n :: findAllExpYears fuel rest
    | none => findAllExpYears fuel tl

/-- `\d{4}` at the current position (exactly four digit characters). -/
def take4Digits : List Char → Option (Nat × List Char)
  | a :: b :: c :: d :: tl =>
    if a.isDigit && b.isDigit && c.isDigit && d.isDigit then
      some (digitsToNat [a, b, c, d], tl)
    else none
  | _ => none

/-- Pattern C at the current position: `(start, some endYear | none)` where
`none` is `present`/`current`, and the remainder. -/
def matchRangeAt (l : List Char) : Option ((Nat × Option Nat) × List Char) :=
  match take4Digits l with
  | none => none
  | some (y1, r1) =>
    match skipSpaces r1 with
    | [] => none
    | c :: r2 =>
      if c == '-' || c == '–' then
        let r3 := skipSpaces r2
        match take4Digits r3 with
        | some (y2, r4) => some ((y1, some y2), r4)
        | none =>
          match matchLit litPresent r3 with
          | some r4 => some ((y1, none), r4)
          | none =>
            match matchLit litCurrent r3 with
            | some r4 => some ((y1, none), r4)
            | none => none
      else none

/-- `re.findall` for pattern C. -/
def findAllRanges : Nat → List Char → List (Nat × Option Nat)
  | 0, _ => []
  | _ + 1, [] => []
  | fuel + 1, l@(_ :: tl) =>
    match matchRangeAt l with
    | some (p, rest) => p :: findAllRanges fuel rest
    | none => findAllRanges fuel tl

/-! ## Attribute extractors (`JobMatcher._extract_years_of_experience`,
`JobMatcher._extract_required_years`) -/

/-- All captures of patterns A and B over the lowered text, in source order
(`years` list of `_extract_years_of_experience`). -/
def explicit_years (l : List Char) : List Nat :=
  findAllYearsOfExp l.length l ++ findAllExpYears l.length l

/-- All captures of pattern C over the lowered text (`date_ranges`). -/
def date_ranges (l : List Char) : List (Nat × Option Nat) :=
  findAllRanges l.length l

/-- `sum((currentYear if end is present/current else end) - start)` over ranges. -/
def sum_ranges (currentYear : Int) (rs : List (Nat × Option Nat)) : Int :=
  (rs.map (fun p => (match p.2 with | some e => (e : Int) | none => currentYear) - (p.1 : Int))).sum

/-- `JobMatcher._extract_years_of_experience`.  Source behaviour: maximum of the
explicit matches; else the date-range sum with `present`/`current` hardcoded to
2024, floored at 1; else the default 2. -/
def extract_years_of_experience (text : String) : Int :=
  match explicit_years (lowerChars text) with
  | y :: ys => ((ys.foldl max y : Nat) : Int)
  | [] =>
    match date_ranges (lowerChars text) with
    | [] => 2
    | rs => max (sum_ranges 2024 rs) 1

/-- The years-of-experience extractor as the specification words it: identical to
`extract_years_of_experience` except that `present`/`current` date-range ends are
"the current calendar year", taken as a parameter. -/
def extractYearsClaim (currentYear : Int) (text : String) : Int :=
  match explicit_years (lowerChars text) with
  | y :: ys => ((ys.foldl max y : Nat) : Int)
  | [] =>
    match date_ranges (lowerChars text) with
    | [] => 2
    | rs => max (sum_ranges currentYear rs) 1

/-- Pattern R1 at the current position: digits-years-(of)?-(experience|exp)
followed somewhere (lazily, not crossing a newline) by required/needed/minimum. -/
def lazyFindReqWord : Nat → List Char → Bool
  | 0, _ => false
  | _ + 1, [] => false
  | fuel + 1, l@(c :: tl) =>
    if (matchLit litRequired l).isSome || (matchLit litNeeded l).isSome ||
       (matchLit litMinimum l).isSome then true
    else if c == '\n' then false
    else lazyFindReqWord fuel tl

def matchYearsReqAt (l : List Char) : Option Nat :=
  let p := takeDigits l
  if p.1.isEmpty then none
  else
    match matchLit litYear (skipSpaces (dropPlus p.2)) with
    | none => none
    | some r4 =>
      if (afterYearsExp (skipSpaces (dropOptS r4))).any (fun r => lazyFindReqWord r.length r)
      then some (digitsToNat p.1) else none

/-- Pattern R2 at the current position. -/
def matchReqYearsAt (l : List Char) : Option Nat :=
  match matchLit litRequired l with
  | some r => (lazyFindDigitsYears r.length r).map (fun q => q.1)
  | none =>
    match matchLit litNeeded l with
    | some r => (lazyFindDigitsYears r.length r).map (fun q => q.1)
    | none =>
      match matchLit litMinimum l with
      | some r => (lazyFindDigitsYears r.length r).map (fun q => q.1)
      | none => none

/-- Pattern R3 at the current position: `(\d+)\+?\s*years?\s*(?:in|of|with)`. -/
def matchYearsInAt (l : List Char) : Option Nat :=
  let p := takeDigits l
  if p.1.isEmpty then none
  else
    match matchLit litYear (skipSpaces (dropPlus p.2)) with
    | none => none
    | some r4 =>
      let r6 := skipSpaces (dropOptS r4)
      if (matchLit litIn r6).isSome || (matchLit litOf r6).isSome ||
         (matchLit litWith r6).isSome
      then some (digitsToNat p.1) else none

/-- `re.search`: first position where the position matcher succeeds. -/
def searchFirst (m : List Char → Option Nat) : Nat → List Char → Option Nat
  | 0, _ => none
  | _ + 1, [] => none
  | fuel + 1, l@(_ :: tl) =>
    match m l with
    | some n => some n
    | none => searchFirst m fuel tl

def kwSenior : List String := ["senior", "lead", "principal"]
def kwMid : List String := ["mid-level", "intermediate"]
def kwJunior : List String := ["junior", "entry", "graduate"]

/-- `any(term in text for term in kws)`. -/
def kwAny (kws : List String) (l : List Char) : Bool :=
  kws.any (fun t => containsChars t.data l)

/-- `JobMatcher._extract_required_years`: patterns R1, R2, R3 in order,
then the seniority-keyword fallback, else undetermined (`None`). -/
def extract_required_years (jobText : String) : Option Nat :=
  let l := lowerChars jobText
  match searchFirst matchYearsReqAt l.length l with
  | some n => some n
  | none =>
    match searchFirst matchReqYearsAt l.length l with
    | some n => some n
    | none =>
      match searchFirst matchYearsInAt l.length l with
      | some n => some n
      | none =>
        if kwAny kwSenior l then some 5
        else if kwAny kwMid l then some 3
        else if kwAny kwJunior l then some 1
        else none

/-- The required-years extractor as the claim words it: only the
"N+ years … required/needed/minimum" style patterns (either order), then the
seniority fallback — without the source's third pattern `N years in/of/with`. -/
def extractRequiredYearsClaim (jobText : String) : Option Nat :=
  let l := lowerChars jobText
  match searchFirst matchYearsReqAt l.length l with
  | some n => some n
  | none =>
    match searchFirst matchReqYearsAt l.length l with
    | some n => some n
    | none =>
      if kwAny kwSenior l then some 5
      else if kwAny kwMid l then some 3
      else if kwAny kwJunior l then some 1
      else none

/-! ## Data model -/

/-- Component sub-scores stored in `match_breakdown` (rounded to one decimal). -/
structure Breakdown where
  tfidf : ℚ
  skills : ℚ
  experience : ℚ
deriving DecidableEq, Repr

/-- A job record: the dictionary fields the matcher and ranker read or write.
A missing key is `none` (for optional numerics) or `""` (for strings, matching
the source's `job.get(key, '')` accesses). -/
structure Job where
  title : String := ""
  company : String := ""
  description : String := ""
  contract_type : String := ""
  created : String := ""
  salary_min : Option ℚ := none
  salary_max : Option ℚ := none
  distance : Option ℚ := none
  match_score : Option ℚ := none
  match_breakdown : Option Breakdown := none
deriving DecidableEq, Repr

/-- Parsed CV data: the fields `JobMatcher` reads. -/
structure CvData where
  raw_text : String := ""
  summary : String := ""
  skills : List String := []
  experience : List String := []
  education : List String := []
deriving DecidableEq, Repr

/-! ## Rounding (Python `round(x, 1)`) -/

/-- Round half to even to an integer, Python's `round` on exact values. -/
def roundHalfEven (x : ℚ) : ℤ :=
  if x - ⌊x⌋ < 1 / 2 then ⌊x⌋
  else if 1 / 2 < x - ⌊x⌋ then ⌊x⌋ + 1
  else if ⌊x⌋ % 2 = 0 then ⌊x⌋ else ⌊x⌋ + 1

/-- Python's `round(x, 1)`. -/
def roundTo1 (x : ℚ) : ℚ := ((roundHalfEven (x * 10) : ℤ) : ℚ) / 10

/-! ## Text preparation (`JobMatcher._prepare_cv_text`, `_prepare_job_text`) -/

/-- Python's `' '.join` on character lists. -/
def joinWithSpace : List (List Char) → List Char
  | [] => []
  | [w] => w
  | w :: ws => w ++ ' ' :: joinWithSpace ws

/-- Python's `' '.join` on strings. -/
def joinStr (parts : List String) : String :=
  String.mk (joinWithSpace (parts.map (fun p => p.data)))

/-- `re.sub(r'<[^>]+>', '', s)`: strip HTML tags.  At a `<`, if a `>` follows
with at least one character in between, the whole tag is removed; otherwise the
`<` is kept.  Fuel-indexed (call with the text length). -/
def stripHtml : Nat → List Char → List Char
  | 0, l => l
  | _ + 1, [] => []
  | fuel + 1, c :: tl =>
    if c == '<' then
      match tl.dropWhile (fun d => d != '>') with
      | '>' :: r2 =>
        if (tl.takeWhile (fun d => d != '>')).isEmpty then c :: stripHtml fuel tl
        else stripHtml fuel r2
      | _ => c :: stripHtml fuel tl
    else c :: stripHtml fuel tl

/-- `JobMatcher._prepare_cv_text`: summary, experience entries, the joined
skills twice (double weight), education entries — joined by spaces.  A falsy
(empty) field contributes nothing. -/
def prepare_cv_text (cv : CvData) : String :=
  let skillsText := joinStr cv.skills
  joinStr
    ((if cv.summary ≠ ("") then [cv.summary] else []) ++
     (if cv.experience ≠ [] then cv.experience else []) ++
     (if cv.skills ≠ [] then [skillsText, skillsText] else []) ++
     (if cv.education ≠ [] then cv.education else []))

/-- `JobMatcher._prepare_job_text`: title twice, HTML-stripped description,
company — joined by spaces. -/
def prepare_job_text (job : Job) : String :=
  joinStr
    ((if job.title ≠ ("") then [job.title, job.title] else []) ++
     (if job.description ≠ ("") then
        [String.mk (stripHtml job.description.data.length job.description.data)] else []) ++
     (if job.company ≠ ("") then [job.company] else []))

/-! ## Sub-scores (`JobMatcher._calculate_tfidf_similarity`,
`_calculate_skill_match`, `_calculate_experience_match`) -/

/-- `JobMatcher._calculate_tfidf_similarity`: the scikit-learn vectorization and
cosine similarity are external; `sim` is their oracle, where `none` models any
raised exception and `some c` the computed cosine.  The source multiplies the
cosine by 100, and its `except` handler returns the neutral 50.0. -/
def calculate_tfidf_similarity (sim : String → String → Option ℚ)
    (cv_text job_text : String) : ℚ :=
  match sim cv_text job_text with
  | some c => c * 100
  | none => 50

/-- Split a character list into whitespace-separated words. -/
def splitWsAux : List Char → List Char → List (List Char)
  | [], acc => if acc.isEmpty then [] else [acc.reverse]
  | c :: tl, acc =>
    if isPySpace c then
      if acc.isEmpty then splitWsAux tl [] else acc.reverse :: splitWsAux tl []
    else splitWsAux tl (c :: acc)

/-- Modelled from the spec: tokens of a document that survive stop-word
removal (the vectorizer's tokenization is scikit-learn's, outside this
repository; whitespace word-splitting of the lowered text stands in for it). -/
def nonStopTokens (stop : List String) (doc : String) : List (List Char) :=
  (splitWsAux (lowerChars doc) []).filter (fun w => !(stop.any (fun s => s.data == w)))

/-- Modelled from the spec: the TF-IDF vectorizer itself is not part of this
repository (it is scikit-learn's `TfidfVectorizer`).  Per the spec, vectorization
fails when either document is degenerate — empty after stop-word removal (in
particular when both texts are empty) — and otherwise yields the cosine
similarity of the two vectors, given here by the oracle `cos`. -/
def tfidfVectorize (stop : List String) (cos : String → String → ℚ)
    (a b : String) : Option ℚ :=
  if nonStopTokens stop a = [] ∨ nonStopTokens stop b = [] then none
  else some (cos a b)

/-- The 32-entry reference vocabulary `common_skills` of
`JobMatcher._calculate_skill_match`, in source (insertion) order. -/
def common_skills : List String :=
  ["python", "java", "javascript", "c++", "sql", "nosql", "mongodb",
   "react", "angular", "vue", "node.js", "django", "flask",
   "aws", "azure", "gcp", "docker", "kubernetes", "git",
   "machine learning", "data analysis", "ai", "deep learning",
   "agile", "scrum", "jira", "excel", "powerpoint", "communication",
   "leadership", "problem solving", "project management"]

/-- Reference-vocabulary skills found (case-insensitive substring) in a text:
`[skill for skill in common_skills if skill in text.lower()]`. -/
def required_skills (text : String) : List (List Char) :=
  (common_skills.map (fun s => s.data)).filter (fun sk => containsChars sk (lowerChars text))

/-- Is a required skill present in the CV: `skill in cv_text or skill in
' '.join(cv_skills)` with `cv_text = raw_text.lower()` and `cv_skills` the
lowered skill list. -/
def skill_found (cv : CvData) (skill : List Char) : Bool :=
  containsChars skill (lowerChars cv.raw_text) ||
  containsChars skill (joinWithSpace (cv.skills.map lowerChars))

/-- `JobMatcher._calculate_skill_match`: required skills are extracted from the
job's `description` only; neutral 70.0 when none are found, else the percentage
matched in the CV. -/
def calculate_skill_match (cv : CvData) (job : Job) : ℚ :=
  let req := required_skills job.description
  if req = [] then 70
  else ((req.filter (skill_found cv)).length : ℚ) / (req.length : ℚ) * 100

/-- The skill sub-score as the spec words it (§4.3 step 4): required skills are
extracted from the job's full comparison text `prepare_job_text job` (title
twice, stripped description, company), not from the description alone. -/
def skillScoreSpec (cv : CvData) (job : Job) : ℚ :=
  let req := required_skills (prepare_job_text job)
  if req = [] then 70
  else ((req.filter (skill_found cv)).length : ℚ) / (req.length : ℚ) * 100

/-- The score table of `JobMatcher._calculate_experience_match` once the
candidate's and the required years are known. -/
def experience_points (experience_years : Int) (required : Nat) : ℚ :=
  if (required : Int) ≤ experience_years then
    if experience_years ≤ (required : Int) + 3 then 100 else 85
  else
    if (required : Int) - experience_years ≤ 1 then 80
    else if (required : Int) - experience_years ≤ 2 then 60
    else 40

/-- `JobMatcher._calculate_experience_match`. -/
def calculate_experience_match (cv : CvData) (job : Job) : ℚ :=
  match extract_required_years job.description with
  | none => 75
  | some required => experience_points (extract_years_of_experience cv.raw_text) required

/-! ## Composite score and batch scoring (`JobMatcher.match_jobs`) -/

/-- The fixed weighting of `match_jobs`:
`(tfidf_score * 0.5) + (skill_score * 0.35) + (experience_score * 0.15)`. -/
def final_score (t s e : ℚ) : ℚ := t * (50 / 100) + s * (35 / 100) + e * (15 / 100)

/-- Score one job against the CV: sets `match_score` (rounded composite) and
`match_breakdown` (each component rounded to one decimal). -/
def score_job (sim : String → String → Option ℚ) (cv : CvData) (job : Job) : Job :=
  let cv_text := prepare_cv_text cv
  let job_text := prepare_job_text job
  let tfidf_score := calculate_tfidf_similarity sim cv_text job_text
  let skill_score := calculate_skill_match cv job
  let experience_score := calculate_experience_match cv job
  { job with
    match_score := some (roundTo1 (final_score tfidf_score skill_score experience_score)),
    match_breakdown := some
      { tfidf := roundTo1 tfidf_score,
        skills := roundTo1 skill_score,
        experience := roundTo1 experience_score } }

/-! ## Stable descending sort (Python's stable `list.sort(key=..., reverse=True)`) -/

/-- Insert into a descending-sorted list, after all entries with a key ≥ the
new key (so that, as in a stable sort, earlier-inserted equal keys stay first
only when they came earlier — see `sortDesc`). -/
def insertDesc {α κ : Type} [LinearOrder κ] (key : α → κ) (a : α) : List α → List α
  | [] => [a]
  | b :: l => if key b ≤ key a then a :: b :: l else b :: insertDesc key a l

/-- Stable descending insertion sort by key: models Python's
`list.sort(key=..., reverse=True)` (stable, equal keys keep input order). -/
def sortDesc {α κ : Type} [LinearOrder κ] (key : α → κ) : List α → List α
  | [] => []
  | a :: l => insertDesc key a (sortDesc key l)

/-- Sort key of the score sorts: `x.get('match_score', 0)`. -/
def scoreKey (job : Job) : ℚ := job.match_score.getD 0

/-- Sort key of the salary sort: `x.get('salary_max', 0) or 0`. -/
def salaryKey (job : Job) : ℚ := job.salary_max.getD 0

/-- `JobMatcher.match_jobs`: score every job, then sort the batch by
`match_score` descending (in place in the source; the returned value here). -/
def match_jobs (sim : String → String → Option ℚ) (cv : CvData)
    (jobs : List Job) : List Job :=
  sortDesc scoreKey (jobs.map (score_job sim cv))

/-! ## Ranking and filter engine (`JobRanker`) -/

def sNotSpecified : String := "not specified"

/-- `JobRanker._filter_by_job_type`: keep on case-insensitive substring match of
any requested type in `contract_type`, or when the type is empty/unspecified. -/
def filter_by_job_type (job_types : List String) (jobs : List Job) : List Job :=
  if job_types = [] then jobs
  else
    jobs.filter (fun job =>
      let ct := lowerChars job.contract_type
      (job_types.any (fun jt => containsChars (lowerChars jt) ct)) ||
      ct.isEmpty || ct == sNotSpecified.data)

/-- The known work-mode keywords of `JobRanker._filter_by_work_mode`. -/
def known_modes : List String := ["remote", "hybrid", "on-site", "onsite", "office"]

/-- `JobRanker._filter_by_work_mode`: keep when any requested mode appears in
description+title, or when none of the known mode keywords appear at all. -/
def filter_by_work_mode (work_modes : List String) (jobs : List Job) : List Job :=
  if work_modes = [] then jobs
  else
    jobs.filter (fun job =>
      let combined := lowerChars job.description ++ ' ' :: lowerChars job.title
      (work_modes.any (fun m => containsChars (lowerChars m) combined)) ||
      !((known_modes.any (fun m => containsChars m.data combined))))

def sAny : String := "any"

/-- The cutoff map of `JobRanker._filter_by_date`; timestamps are integers in
days, `now - k` standing for `now - timedelta(days=k)`. -/
def cutoff_for (now : Int) (dp : String) : Option Int :=
  if dp = ("24h") then some (now - 1)
  else if dp = ("3days") then some (now - 3)
  else if dp = ("7days") then some (now - 7)
  else if dp = ("14days") then some (now - 14)
  else if dp = ("30days") then some (now - 30)
  else none

/-- `JobRanker._parse_date`: empty string parses to `None`; otherwise the
format attempts (ISO, then the fixed format list) are the oracle `parse`,
whose `none` models "no format matched" — `_parse_date` itself never raises. -/
def parse_date (parse : String → Option Int) (s : String) : Option Int :=
  if s.isEmpty then none else parse s

/-- The per-job keep decision of `JobRanker._filter_by_date`'s loop body:
keep when the date parses and is at/after the cutoff, or when `created` is
empty.  (A parse failure on a non-empty string falls through both the `if`
and the `elif` and is dropped; the `except` arm is unreachable because
`_parse_date` swallows its own exceptions.) -/
def date_passes (parse : String → Option Int) (cutoff : Int) (job : Job) : Bool :=
  match parse_date parse job.created with
  | some d => decide (cutoff ≤ d)
  | none => job.created.isEmpty

/-- `JobRanker._filter_by_date`. -/
def filter_by_date (parse : String → Option Int) (now : Int) (date_posted : String)
    (jobs : List Job) : List Job :=
  if date_posted.isEmpty || date_posted == sAny then jobs
  else
    match cutoff_for now date_posted with
    | none => jobs
    | some cutoff => jobs.filter (fun job => date_passes parse cutoff job)

/-- The per-job keep decision of `JobRanker._filter_by_salary`: a job with no
salary info passes; otherwise it fails only when `job_max < min_salary` or
`job_min > max_salary` (each check requiring both its operands). -/
def salary_passes (min_salary max_salary : Option ℚ) (job : Job) : Bool :=
  if job.salary_min.isNone && job.salary_max.isNone then true
  else
    let failLow : Bool :=
      match min_salary, job.salary_max with
      | some m, some jM => decide (jM < m)
      | _, _ => false
    let failHigh : Bool :=
      match max_salary, job.salary_min with
      | some mx, some jm => decide (mx < jm)
      | _, _ => false
    !(failLow || failHigh)

/-- `JobRanker._filter_by_salary`. -/
def filter_by_salary (min_salary max_salary : Option ℚ) (jobs : List Job) : List Job :=
  if min_salary.isNone && max_salary.isNone then jobs
  else jobs.filter (fun job => salary_passes min_salary max_salary job)

/-- `JobRanker._filter_by_match_score`: `job.get('match_score', 0) >= min_score`. -/
def filter_by_match_score (min_score : ℚ) (jobs : List Job) : List Job :=
  jobs.filter (fun job => decide (min_score ≤ job.match_score.getD 0))

/-- `JobRanker._filter_by_distance`: keep when `distance` is absent or within. -/
def filter_by_distance (max_distance : ℚ) (jobs : List Job) : List Job :=
  jobs.filter (fun job =>
    match job.distance with
    | none => true
    | some d => decide (d ≤ max_distance))

def sMatchScore : String := "match_score"
def sDate : String := "date"
def sSalary : String := "salary"

/-- `JobRanker._sort_jobs`: in-place stable descending sort by the chosen key;
an unknown key sorts nothing. -/
def sort_jobs (sortBy : String) (jobs : List Job) : List Job :=
  if sortBy = sMatchScore then sortDesc scoreKey jobs
  else if sortBy = sDate then sortDesc (fun j => j.created) jobs
  else if sortBy = sSalary then sortDesc salaryKey jobs
  else jobs

/-- The `FilterCriteria` dictionary of `JobRanker.filter_and_rank`: an absent
key is `none`. -/
structure Filters where
  job_types : Option (List String) := none
  work_modes : Option (List String) := none
  date_posted : Option String := none
  salary_min : Option ℚ := none
  salary_max : Option ℚ := none
  min_match_score : Option ℚ := none
  max_distance_miles : Option ℚ := none
  sort_by : Option String := none

/-- Python truthiness of `filters.get(key)` for a list value. -/
def truthyList : Option (List String) → Bool
  | some (_ :: _) => true
  | _ => false

/-- Python truthiness of `filters.get(key)` for a string value. -/
def truthyStr : Option String → Bool
  | some s => !s.isEmpty
  | none => false

/-- Python truthiness of `filters.get(key)` for a numeric value (0 is falsy). -/
def truthyNum : Option ℚ → Bool
  | some q => decide (q ≠ 0)
  | none => false

/-- The six conditional filter stages of `JobRanker.filter_and_rank`, in source
order; `none` is a stage whose guard was falsy (the stage is skipped). -/
def stageActs (parse : String → Option Int) (now : Int) (f : Filters) :
    List (Option (List Job → List Job)) :=
  [if truthyList f.job_types then some (filter_by_job_type (f.job_types.getD [])) else none,
   if truthyList f.work_modes then some (filter_by_work_mode (f.work_modes.getD [])) else none,
   if truthyStr f.date_posted then some (filter_by_date parse now (f.date_posted.getD (""))) else none,
   if f.salary_min.isSome || f.salary_max.isSome then some (filter_by_salary f.salary_min f.salary_max) else none,
   if truthyNum f.min_match_score then some (filter_by_match_score (f.min_match_score.getD 0)) else none,
   if truthyNum f.max_distance_miles then some (filter_by_distance (f.max_distance_miles.getD 0)) else none]

/-- Run the filter pipeline on a job-list value. -/
def applyStages : List (Option (List Job → List Job)) → List Job → List Job
  | [], jobs => jobs
  | none :: rest, jobs => applyStages rest jobs
  | some g :: rest, jobs => applyStages rest (g jobs)

/-- `JobRanker.filter_and_rank` as a value-level function: apply the active
filters in order, then sort by `filters.get('sort_by', 'match_score')`. -/
def filter_and_rank (parse : String → Option Int) (now : Int)
    (jobs : List Job) (f : Filters) : List Job :=
  sort_jobs (f.sort_by.getD sMatchScore) (applyStages (stageActs parse now f) jobs)

/-! ## Heap model of list aliasing

`filter_and_rank` starts from `jobs.copy()`, every filter builds a fresh list,
and `_sort_jobs` sorts its argument in place — so the caller's list object is
never mutated.  `match_jobs`, by contrast, sorts the caller's list in place.
Heap cells hold Python list objects; a reference is a cell index. -/

/-- Read a heap cell. -/
def readH : List (List Job) → Nat → List Job
  | [], _ => []
  | c :: _, 0 => c
  | _ :: tl, n + 1 => readH tl n

/-- Overwrite a heap cell in place. -/
def writeH : List (List Job) → Nat → List Job → List (List Job)
  | [], _, _ => []
  | _ :: tl, 0, v => v :: tl
  | c :: tl, n + 1, v => c :: writeH tl n v

/-- Run the filter stages on the heap: a skipped stage leaves the current
reference; an active stage allocates a fresh cell holding its output. -/
def runStages : List (Option (List Job → List Job)) →
    List (List Job) × Nat → List (List Job) × Nat
  | [], p => p
  | none :: rest, p => runStages rest p
  | some g :: rest, p => runStages rest (p.1 ++ [g (readH p.1 p.2)], p.1.length)

/-- `JobRanker.filter_and_rank` on the heap: `jobs.copy()` allocates a fresh
cell, the stages run, and the final `_sort_jobs` mutates the current (always
fresh) cell in place; the result is the heap and the returned reference. -/
def filter_and_rank_heap (parse : String → Option Int) (now : Int)
    (h : List (List Job)) (r : Nat) (f : Filters) : List (List Job) × Nat :=
  let p0 := (h ++ [readH h r], h.length)
  let p := runStages (stageActs parse now f) p0
  (writeH p.1 p.2 (sort_jobs (f.sort_by.getD sMatchScore) (readH p.1 p.2)), p.2)

/-- `JobMatcher.match_jobs` on the heap: it scores the jobs and sorts the
caller's list object in place (`jobs.sort(...)`), mutating the given cell. -/
def match_jobs_heap (sim : String → String → Option ℚ) (cv : CvData)
    (h : List (List Job)) (r : Nat) : List (List Job) :=
  writeH h r (match_jobs sim cv (readH h r))

/-! ## Concrete inputs used by the witnesses and counterexamples -/

/-- A similarity oracle on which vectorization always fails (the source's
`except` path). -/
def simNone : String → String → Option ℚ := fun _ _ => none

/-- A date-parse oracle on which no format ever matches. -/
def parseNone : String → Option Int := fun _ => none

/-- CV with 5 explicit years and five of the nine skills of `jobC1`. -/
def cvC1 : CvData := { raw_text := "5 years of experience python aws azure gcp docker" }

/-- Job whose description mentions `senior` and exactly nine vocabulary skills. -/
def jobC1 : Job :=
  { description := "senior role python aws azure gcp docker kubernetes git react angular" }

/-- CV whose only skill is in the job title of `job5`, not its description. -/
def cv5 : CvData := { skills := ["python"], raw_text := "python" }

/-- Job whose title mentions a vocabulary skill but whose description has none. -/
def job5 : Job := { title := "python developer", description := "great role" }

/-- The spec's skill-score example: résumé skills Python and AWS. -/
def cvEx : CvData := { skills := ["Python", "AWS"] }

/-- The spec's skill-score example: a job mentioning only python and docker. -/
def jobEx : Job := { description := "python docker" }

def jobT1 : Job := { title := "a" }
def jobT2 : Job := { title := "b", description := "python" }
def cvT : CvData := { raw_text := "python" }

/-- A job whose `created` string no date format parses. -/
def jobBadDate : Job := { created := "not-a-date" }

/-- An absent `FilterCriteria`: every key missing. -/
def emptyFilters : Filters := {}

/-- An empty-but-present `FilterCriteria`: empty collections, empty string,
zero numerics — all falsy in the source's truthiness guards. -/
def emptyishFilters : Filters :=
  { job_types := some [], work_modes := some [], date_posted := some (""),
    min_match_score := some 0, max_distance_miles := some 0, sort_by := some sMatchScore }

/-! ## Lemmas: rounding -/

theorem roundHalfEven_cases (x : ℚ) :
    roundHalfEven x = ⌊x⌋ ∨ roundHalfEven x = ⌊x⌋ + 1 := by
  unfold roundHalfEven
  split_ifs <;> simp

theorem abs_roundHalfEven_sub (x : ℚ) : |(roundHalfEven x : ℚ) - x| ≤ 1 / 2 := by
  have h1 : (⌊x⌋ : ℚ) ≤ x := Int.floor_le x
  have h2 : x < ⌊x⌋ + 1 := Int.lt_floor_add_one x
  unfold roundHalfEven
  split_ifs with hA hB hC <;> rw [abs_le] <;> constructor <;> push_cast <;> linarith

theorem abs_roundTo1_sub (x : ℚ) : |roundTo1 x - x| ≤ 1 / 20 := by
  have h := abs_roundHalfEven_sub (x * 10)
  unfold roundTo1
  have heq : ((roundHalfEven (x * 10) : ℤ) : ℚ) / 10 - x =
      (((roundHalfEven (x * 10) : ℤ) : ℚ) - x * 10) / 10 := by ring
  rw [heq, abs_div]
  rw [show |(10 : ℚ)| = 10 by norm_num]
  linarith

theorem roundTo1_nonneg {x : ℚ} (h : 0 ≤ x) : 0 ≤ roundTo1 x := by
  have hf : (0 : ℤ) ≤ ⌊x * 10⌋ := Int.floor_nonneg.mpr (by linarith)
  have hc := roundHalfEven_cases (x * 10)
  have hz : (0 : ℤ) ≤ roundHalfEven (x * 10) := by omega
  unfold roundTo1
  positivity

theorem roundTo1_le_hundred {x : ℚ} (h : x ≤ 100) : roundTo1 x ≤ 100 := by
  have h1 := abs_roundHalfEven_sub (x * 10)
  rw [abs_le] at h1
  have h2 : ((roundHalfEven (x * 10) : ℤ) : ℚ) ≤ 2001 / 2 := by linarith
  have h3 : roundHalfEven (x * 10) ≤ (1000 : ℤ) := by
    have := Int.le_floor.mpr h2
    have hfl : ⌊(2001 / 2 : ℚ)⌋ = 1000 := by decide
    omega
  unfold roundTo1
  have h4 : ((roundHalfEven (x * 10) : ℤ) : ℚ) ≤ 1000 := by exact_mod_cast h3
  linarith

theorem roundTo1_recon {x y : ℚ} (h : |x - y| ≤ 1 / 20) :
    |roundTo1 x - roundTo1 y| ≤ 1 / 10 := by
  have hx := abs_roundHalfEven_sub (x * 10)
  have hy := abs_roundHalfEven_sub (y * 10)
  have hxy : |x * 10 - y * 10| ≤ 1 / 2 := by
    rw [show x * 10 - y * 10 = (x - y) * 10 by ring, abs_mul,
      show |(10 : ℚ)| = 10 by norm_num]
    linarith
  set z1 := roundHalfEven (x * 10) with hz1
  set z2 := roundHalfEven (y * 10) with hz2
  have hq : |((z1 : ℚ)) - (z2 : ℚ)| ≤ 3 / 2 := by
    have t1 : (z1 : ℚ) - (z2 : ℚ) =
        ((z1 : ℚ) - x * 10) + (x * 10 - y * 10) + ((y * 10) - (z2 : ℚ)) := by ring
    calc |((z1 : ℚ)) - (z2 : ℚ)|
        ≤ |(z1 : ℚ) - x * 10| + |x * 10 - y * 10| + |(y * 10) - (z2 : ℚ)| := by
          rw [t1]; exact (abs_add_three _ _ _)
      _ ≤ 3 / 2 := by
          rw [abs_sub_comm (y * 10) ((z2 : ℚ))]
          linarith
  have hint : |z1 - z2| ≤ (1 : ℤ) := by
    have hcast : ((|z1 - z2| : ℤ) : ℚ) ≤ 3 / 2 := by
      push_cast
      exact hq
    have := Int.le_floor.mpr hcast
    have hfl : ⌊(3 / 2 : ℚ)⌋ = 1 := by decide
    omega
  have hback : |((z1 : ℚ)) - (z2 : ℚ)| ≤ 1 := by
    have : ((|z1 - z2| : ℤ) : ℚ) ≤ 1 := by exact_mod_cast hint
    push_cast at this
    exact this
  unfold roundTo1
  rw [← hz1, ← hz2, div_sub_div_same, abs_div, show |(10 : ℚ)| = 10 by norm_num]
  linarith

/-! ## Lemmas: sub-score ranges -/

theorem final_score_bounds {t s e : ℚ} (ht0 : 0 ≤ t) (ht1 : t ≤ 100)
    (hs0 : 0 ≤ s) (hs1 : s ≤ 100) (he0 : 0 ≤ e) (he1 : e ≤ 100) :
    0 ≤ final_score t s e ∧ final_score t s e ≤ 100 := by
  unfold final_score
  constructor <;> nlinarith

theorem final_score_recon_close (t s e : ℚ) :
    |final_score t s e - final_score (roundTo1 t) (roundTo1 s) (roundTo1 e)| ≤ 1 / 20 := by
  have ht := abs_roundTo1_sub t
  have hs := abs_roundTo1_sub s
  have he := abs_roundTo1_sub e
  rw [abs_sub_comm] at ht hs he
  have hrw : final_score t s e - final_score (roundTo1 t) (roundTo1 s) (roundTo1 e) =
      (t - roundTo1 t) * (50 / 100) + (s - roundTo1 s) * (35 / 100) +
        (e - roundTo1 e) * (15 / 100) := by
    unfold final_score; ring
  rw [hrw]
  calc |(t - roundTo1 t) * (50 / 100) + (s - roundTo1 s) * (35 / 100) +
          (e - roundTo1 e) * (15 / 100)|
      ≤ |(t - roundTo1 t) * (50 / 100)| + |(s - roundTo1 s) * (35 / 100)| +
          |(e - roundTo1 e) * (15 / 100)| := abs_add_three _ _ _
    _ ≤ 1 / 20 := by
        rw [abs_mul, abs_mul, abs_mul,
          show |(50 / 100 : ℚ)| = 50 / 100 by norm_num,
          show |(35 / 100 : ℚ)| = 35 / 100 by norm_num,
          show |(15 / 100 : ℚ)| = 15 / 100 by norm_num]
        nlinarith [abs_nonneg (t - roundTo1 t), abs_nonneg (s - roundTo1 s),
          abs_nonneg (e - roundTo1 e)]

theorem calculate_skill_match_bounds (cv : CvData) (job : Job) :
    0 ≤ calculate_skill_match cv job ∧ calculate_skill_match cv job ≤ 100 := by
  simp only [calculate_skill_match]
  split_ifs with h
  · norm_num
  · have hlen : 0 < (required_skills job.description).length := List.length_pos.mpr h
    have hle : ((required_skills job.description).filter (skill_found cv)).length ≤
        (required_skills job.description).length := List.length_filter_le _ _
    have h1 : (((required_skills job.description).filter (skill_found cv)).length : ℚ) ≤
        ((required_skills job.description).length : ℚ) := by exact_mod_cast hle
    have h2 : (0 : ℚ) < ((required_skills job.description).length : ℚ) := by exact_mod_cast hlen
    constructor
    · positivity
    · rw [div_mul_eq_mul_div, div_le_iff₀ h2]
      nlinarith

theorem experience_points_bounds (ey : Int) (r : Nat) :
    0 ≤ experience_points ey r ∧ experience_points ey r ≤ 100 := by
  unfold experience_points
  split_ifs <;> norm_num

theorem calculate_experience_match_bounds (cv : CvData) (job : Job) :
    0 ≤ calculate_experience_match cv job ∧ calculate_experience_match cv job ≤ 100 := by
  unfold calculate_experience_match
  cases extract_required_years job.description with
  | none => norm_num
  | some r => exact experience_points_bounds _ r

theorem calculate_tfidf_similarity_bounds (sim : String → String → Option ℚ)
    (a b : String) (hsim : ∀ x y c, sim x y = some c → 0 ≤ c ∧ c ≤ 1) :
    0 ≤ calculate_tfidf_similarity sim a b ∧ calculate_tfidf_similarity sim a b ≤ 100 := by
  unfold calculate_tfidf_similarity
  cases h : sim a b with
  | none => norm_num
  | some c =>
    obtain ⟨h0, h1⟩ := hsim a b c h
    exact ⟨show (0 : ℚ) ≤ c * 100 by nlinarith, show c * 100 ≤ (100 : ℚ) by nlinarith⟩

/-! ## Lemmas: the stable descending sort -/

theorem insertDesc_perm {α κ : Type} [LinearOrder κ] (key : α → κ) (a : α) :
    ∀ l : List α, (insertDesc key a l).Perm (a :: l) := by
  intro l
  induction l with
  | nil => exact List.Perm.refl _
  | cons b tl ih =>
    unfold insertDesc
    split_ifs
    · exact List.Perm.refl _
    · exact (List.Perm.cons b ih).trans (List.Perm.swap a b tl)

theorem sortDesc_perm {α κ : Type} [LinearOrder κ] (key : α → κ) :
    ∀ l : List α, (sortDesc key l).Perm l := by
  intro l
  induction l with
  | nil => exact List.Perm.refl _
  | cons a tl ih =>
    exact (insertDesc_perm key a (sortDesc key tl)).trans (ih.cons a)

theorem mem_insertDesc {α κ : Type} [LinearOrder κ] (key : α → κ) (a x : α) (l : List α) :
    x ∈ insertDesc key a l ↔ x = a ∨ x ∈ l := by
  rw [(insertDesc_perm key a l).mem_iff, List.mem_cons]

theorem insertDesc_sorted {α κ : Type} [LinearOrder κ] (key : α → κ) (a : α) :
    ∀ l : List α, l.Pairwise (fun u v => key v ≤ key u) →
      (insertDesc key a l).Pairwise (fun u v => key v ≤ key u) := by
  intro l
  induction l with
  | nil => intro _; simp [insertDesc]
  | cons b tl ih =>
    intro h
    rw [List.pairwise_cons] at h
    obtain ⟨hb, htl⟩ := h
    unfold insertDesc
    split_ifs with hba
    · refine List.Pairwise.cons ?_ (List.Pairwise.cons hb htl)
      intro x hx
      rcases List.mem_cons.mp hx with rfl | hx
      · exact hba
      · exact le_trans (hb x hx) hba
    · refine List.Pairwise.cons ?_ (ih htl)
      intro x hx
      rcases (mem_insertDesc key a x tl).mp hx with rfl | hx
      · exact le_of_lt (lt_of_not_le hba)
      · exact hb x hx

theorem sortDesc_sorted {α κ : Type} [LinearOrder κ] (key : α → κ) :
    ∀ l : List α, (sortDesc key l).Pairwise (fun u v => key v ≤ key u) := by
  intro l
  induction l with
  | nil => exact List.Pairwise.nil
  | cons a tl ih => exact insertDesc_sorted key a (sortDesc key tl) ih

theorem filter_insertDesc {α κ : Type} [LinearOrder κ] (key : α → κ) (a : α) (v : κ) :
    ∀ l : List α,
      (insertDesc key a l).filter (fun x => decide (key x = v)) =
        if key a = v then a :: l.filter (fun x => decide (key x = v))
        else l.filter (fun x => decide (key x = v)) := by
  intro l
  induction l with
  | nil => by_cases hav : key a = v <;> simp [insertDesc, List.filter, hav]
  | cons b tl ih =>
    unfold insertDesc
    by_cases hba : key b ≤ key a
    · rw [if_pos hba]
      by_cases hav : key a = v <;> by_cases hbv : key b = v <;>
        simp [List.filter_cons, hav, hbv]
    · rw [if_neg hba]
      by_cases hbv : key b = v
      · have hav : ¬ key a = v := fun hav => hba (le_of_eq (hbv.trans hav.symm))
        simp [List.filter_cons, hbv, hav, ih]
      · by_cases hav : key a = v <;> simp [List.filter_cons, hbv, hav, ih]

theorem filter_sortDesc {α κ : Type} [LinearOrder κ] (key : α → κ) (v : κ) :
    ∀ l : List α,
      (sortDesc key l).filter (fun x => decide (key x = v)) =
        l.filter (fun x => decide (key x = v)) := by
  intro l
  induction l with
  | nil => rfl
  | cons a tl ih =>
    show (insertDesc key a (sortDesc key tl)).filter _ = _
    rw [filter_insertDesc]
    by_cases hav : key a = v <;> simp [List.filter_cons, hav, ih]

/-! ## Lemmas: the heap model -/

theorem readH_append_lt :
    ∀ (h : List (List Job)) (x : List Job) (i : Nat), i < h.length →
      readH (h ++ [x]) i = readH h i := by
  intro h
  induction h with
  | nil => intro x i hi; exact absurd hi (by simp)
  | cons c tl ih =>
    intro x i hi
    cases i with
    | zero => rfl
    | succ n => exact ih x n (by simpa using hi)

theorem readH_append_len :
    ∀ (h : List (List Job)) (x : List Job), readH (h ++ [x]) h.length = x := by
  intro h
  induction h with
  | nil => intro x; rfl
  | cons c tl ih => intro x; exact ih x

theorem readH_writeH_ne :
    ∀ (h : List (List Job)) (i j : Nat) (v : List Job), i ≠ j →
      readH (writeH h i v) j = readH h j := by
  intro h
  induction h with
  | nil => intro i j v _; cases i <;> rfl
  | cons c tl ih =>
    intro i j v hij
    cases i with
    | zero =>
      cases j with
      | zero => exact absurd rfl hij
      | succ m => rfl
    | succ n =>
      cases j with
      | zero => rfl
      | succ m => exact ih n m v (fun hnm => hij (by rw [hnm]))

theorem readH_writeH_self :
    ∀ (h : List (List Job)) (i : Nat) (v : List Job), i < h.length →
      readH (writeH h i v) i = v := by
  intro h
  induction h with
  | nil => intro i v hi; exact absurd hi (by simp)
  | cons c tl ih =>
    intro i v hi
    cases i with
    | zero => rfl
    | succ n => exact ih n v (by simpa using hi)

/-- Behaviour of the filter pipeline on the heap: the current reference stays
fresh (index at least `N`), cells below `N` are untouched, and the current
cell's contents are the value-level pipeline applied to the starting contents. -/
theorem runStages_spec :
    ∀ (acts : List (Option (List Job → List Job))) (p : List (List Job) × Nat) (N : Nat),
      N ≤ p.2 → p.2 < p.1.length →
      N ≤ (runStages acts p).2 ∧
      (runStages acts p).2 < (runStages acts p).1.length ∧
      (∀ i, i < N → readH (runStages acts p).1 i = readH p.1 i) ∧
      readH (runStages acts p).1 (runStages acts p).2 = applyStages acts (readH p.1 p.2) := by
  intro acts
  induction acts with
  | nil => intro p N h1 h2; exact ⟨h1, h2, fun _ _ => rfl, rfl⟩
  | cons act rest ih =>
    intro p N h1 h2
    cases act with
    | none => exact ih p N h1 h2
    | some g =>
      have hNlen : N ≤ p.1.length := le_trans h1 (le_of_lt h2)
      have hstep := ih (p.1 ++ [g (readH p.1 p.2)], p.1.length) N hNlen (by simp)
      obtain ⟨a1, a2, a3, a4⟩ := hstep
      refine ⟨a1, a2, ?_, ?_⟩
      · intro i hi
        have := a3 i hi
        rw [show runStages (some g :: rest) p =
          runStages rest (p.1 ++ [g (readH p.1 p.2)], p.1.length) from rfl]
        rw [this]
        exact readH_append_lt p.1 _ i (lt_of_lt_of_le hi hNlen)
      · rw [show runStages (some g :: rest) p =
          runStages rest (p.1 ++ [g (readH p.1 p.2)], p.1.length) from rfl]
        rw [a4]
        show applyStages rest (readH (p.1 ++ [g (readH p.1 p.2)]) p.1.length) = _
        rw [readH_append_len]
        rfl

/-! ## Lemmas: maximum via `List.foldl max` (Python's `max(years)`) -/

theorem foldl_max_spec (ys : List Nat) :
    ∀ y : Nat,
      (ys.foldl max y = y ∨ ys.foldl max y ∈ ys) ∧
      y ≤ ys.foldl max y ∧ ∀ z ∈ ys, z ≤ ys.foldl max y := by
  induction ys with
  | nil => intro y; simp
  | cons a tl ih =>
    intro y
    obtain ⟨h1, h2, h3⟩ := ih (max y a)
    refine ⟨?_, ?_, ?_⟩
    · have hfold : (a :: tl).foldl max y = tl.foldl max (max y a) := rfl
      rw [hfold]
      rcases h1 with h | h
      · rcases max_choice y a with hc | hc
        · exact Or.inl (h.trans hc)
        · exact Or.inr (by rw [h, hc]; exact List.mem_cons_self a tl)
      · exact Or.inr (List.mem_cons_of_mem a h)
    · exact le_trans (le_max_left y a) h2
    · intro z hz
      rcases List.mem_cons.mp hz with rfl | hz
      · exact le_trans (le_max_right y z) h2
      · exact h3 z hz

/-! ## Claim theorems -/

/-- C1 (amended): for every scored job, the stored match score equals
`roundTo1` of the fixed weighting `sim*0.5 + skill*0.35 + exp*0.15` of the
(unrounded) sub-scores, lies in `[0, 100]`, and agrees with the value
recomputed from the stored (rounded) breakdown components to within `0.1` —
not exactly, since the breakdown stores each component rounded to one decimal.
The similarity oracle is assumed to return cosines in `[0, 1]`, as TF-IDF
cosine similarity does. -/
theorem match_score_formula_bounds_recon (sim : String → String → Option ℚ)
    (cv : CvData) (job : Job)
    (hsim : ∀ x y c, sim x y = some c → 0 ≤ c ∧ c ≤ 1) :
    ∃ t s e : ℚ,
      (score_job sim cv job).match_score = some (roundTo1 (final_score t s e)) ∧
      (score_job sim cv job).match_breakdown =
        some { tfidf := roundTo1 t, skills := roundTo1 s, experience := roundTo1 e } ∧
      0 ≤ roundTo1 (final_score t s e) ∧ roundTo1 (final_score t s e) ≤ 100 ∧
      |roundTo1 (final_score t s e) -
          roundTo1 (final_score (roundTo1 t) (roundTo1 s) (roundTo1 e))| ≤ 1 / 10 := by
  refine ⟨calculate_tfidf_similarity sim (prepare_cv_text cv) (prepare_job_text job),
    calculate_skill_match cv job, calculate_experience_match cv job, rfl, rfl, ?_, ?_, ?_⟩
  · obtain ⟨ht0, ht1⟩ :=
      calculate_tfidf_similarity_bounds sim (prepare_cv_text cv) (prepare_job_text job) hsim
    obtain ⟨hs0, hs1⟩ := calculate_skill_match_bounds cv job
    obtain ⟨he0, he1⟩ := calculate_experience_match_bounds cv job
    exact roundTo1_nonneg (final_score_bounds ht0 ht1 hs0 hs1 he0 he1).1
  · obtain ⟨ht0, ht1⟩ :=
      calculate_tfidf_similarity_bounds sim (prepare_cv_text cv) (prepare_job_text job) hsim
    obtain ⟨hs0, hs1⟩ := calculate_skill_match_bounds cv job
    obtain ⟨he0, he1⟩ := calculate_experience_match_bounds cv job
    exact roundTo1_le_hundred (final_score_bounds ht0 ht1 hs0 hs1 he0 he1).2
  · exact roundTo1_recon (final_score_recon_close _ _ _)

/-- C1 witness: the amended theorem applied at a concrete scored job (the
vectorizer failing, so the similarity falls back to 50.0). -/
theorem match_score_formula_bounds_recon_witness :
    ∃ t s e : ℚ,
      (score_job simNone cvC1 jobC1).match_score = some (roundTo1 (final_score t s e)) ∧
      (score_job simNone cvC1 jobC1).match_breakdown =
        some { tfidf := roundTo1 t, skills := roundTo1 s, experience := roundTo1 e } ∧
      0 ≤ roundTo1 (final_score t s e) ∧ roundTo1 (final_score t s e) ≤ 100 ∧
      |roundTo1 (final_score t s e) -
          roundTo1 (final_score (roundTo1 t) (roundTo1 s) (roundTo1 e))| ≤ 1 / 10 :=
  match_score_formula_bounds_recon simNone cvC1 jobC1
    (fun _ _ _ h => Option.noConfusion h)

/-- C1 counterexample: a concrete scored job (five explicit years; nine
vocabulary skills required, five matched, so `skill = 500/9`; seniority match,
so `experience = 100`; similarity fallback 50) whose stored match score is
59.4, while recomputing the weighting from the stored rounded breakdown
(50, 55.6, 100) yields 59.5 — the score is not exactly reconstructible from
`match_breakdown`. -/
theorem match_score_not_exactly_reconstructible :
    (score_job simNone cvC1 jobC1).match_score = some (297 / 5) ∧
    (score_job simNone cvC1 jobC1).match_breakdown =
      some { tfidf := 50, skills := 278 / 5, experience := 100 } ∧
    roundTo1 (final_score 50 (278 / 5) 100) = 119 / 2 ∧
    (297 / 5 : ℚ) ≠ 119 / 2 := by
  refine ⟨by decide, by decide, by decide, by decide⟩

/-- C2: evaluating the date filter at the failing input.  With an active
`7days` criterion, a job whose non-empty `created` string parses under no
format (`parse` oracle always `none`) is EXCLUDED by the source — not kept —
because `_parse_date` swallows its own exceptions and returns `None`, so the
`except: # Include if can't parse date` arm of `_filter_by_date` is dead and
the `None` result falls through both keep branches.  The claim (and the
code's own comment) say such a job is never excluded. -/
theorem date_filter_drops_unparseable :
    filter_by_date parseNone 100 ("7days") [jobBadDate] = [] ∧
    jobBadDate.created ≠ ("") ∧
    date_passes parseNone (100 - 7) jobBadDate = false ∧
    (∀ (parse : String → Option Int) (cutoff : Int) (job : Job),
      job.created = ("") → date_passes parse cutoff job = true) ∧
    (∀ (parse : String → Option Int) (cutoff d : Int) (job : Job),
      parse job.created = some d → job.created ≠ ("") → cutoff ≤ d →
        date_passes parse cutoff job = true) := by
  refine ⟨by decide, by decide, by decide, ?_, ?_⟩
  · intro parse cutoff job h
    simp [date_passes, parse_date, h, String.isEmpty_iff]
  · intro parse cutoff d job hp hne hle
    have hempty : job.created.isEmpty = false := by
      cases hE : job.created.isEmpty
      · rfl
      · exact absurd ((String.isEmpty_iff job.created).mp hE) hne
    simp [date_passes, parse_date, hempty, hp, hle]

/-- C2 witness for the hypotheses of the general keep branches above:
an empty `created` and a parsed in-range `created` are both kept. -/
theorem date_filter_drops_unparseable_witness :
    date_passes parseNone 93 ({} : Job) = true ∧
    date_passes (fun _ => some 99) 93 jobBadDate = true :=
  ⟨date_filter_drops_unparseable.2.2.2.1 parseNone 93 {} rfl,
   date_filter_drops_unparseable.2.2.2.2 (fun _ => some 99) 93 99 jobBadDate rfl
     (by decide) (by decide)⟩

/-- C3 (amended): `extract_years_of_experience` returns the maximum over the
explicit "N years of experience"-style matches; else the sum of
`end - start` over the `YYYY-YYYY`/`YYYY-present` ranges with
`present`/`current` as the FIXED year 2024 (not the current calendar year),
floored at 1; else the default 2.  The spec's own example evaluates to 5. -/
theorem extract_years_characterization :
    (∀ text : String,
      (explicit_years (lowerChars text) ≠ [] →
        ∃ y, y ∈ explicit_years (lowerChars text) ∧
          (∀ z ∈ explicit_years (lowerChars text), z ≤ y) ∧
          extract_years_of_experience text = (y : Int)) ∧
      (explicit_years (lowerChars text) = [] → date_ranges (lowerChars text) ≠ [] →
        extract_years_of_experience text =
          max (sum_ranges 2024 (date_ranges (lowerChars text))) 1) ∧
      (explicit_years (lowerChars text) = [] → date_ranges (lowerChars text) = [] →
        extract_years_of_experience text = 2)) ∧
    extract_years_of_experience ("5+ years of experience in Python") = 5 := by
  constructor
  · intro text
    refine ⟨?_, ?_, ?_⟩
    · intro hne
      unfold extract_years_of_experience
      cases hey : explicit_years (lowerChars text) with
      | nil => exact absurd hey hne
      | cons y ys =>
        obtain ⟨h1, h2, h3⟩ := foldl_max_spec ys y
        refine ⟨ys.foldl max y, ?_, ?_, rfl⟩
        · rcases h1 with h | h
          · rw [h]; exact List.mem_cons_self y ys
          · exact List.mem_cons_of_mem y h
        · intro z hz
          rcases List.mem_cons.mp hz with rfl | hz
          · exact h2
          · exact h3 z hz
    · intro h1 h2
      unfold extract_years_of_experience
      rw [h1]
      cases hdr : date_ranges (lowerChars text) with
      | nil => exact absurd hdr h2
      | cons r rs => rfl
    · intro h1 h2
      unfold extract_years_of_experience
      rw [h1, h2]
  · decide

/-- C3 witness: the characterization applied at concrete inputs — a text with
neither explicit years nor date ranges yields the default 2. -/
theorem extract_years_characterization_witness :
    extract_years_of_experience ("nothing here") = 2 :=
  (extract_years_characterization.1 ("nothing here")).2.2 (by decide) (by decide)

/-- C3 counterexample: on `"2020 - present"` the source returns
`2024 - 2020 = 4` (the year 2024 is hardcoded), while the claim's reading —
`present` as the current calendar year, 2026 at the time of this
development — demands `2026 - 2020 = 6`. -/
theorem extract_years_present_is_2024 :
    extract_years_of_experience ("2020 - present") = 4 ∧
    extractYearsClaim 2026 ("2020 - present") = 6 ∧
    extract_years_of_experience ("2020 - present") ≠
      extractYearsClaim 2026 ("2020 - present") := by
  refine ⟨by decide, by decide, by decide⟩

/-- C4 (amended): `extract_required_years` returns the first match of the
patterns "N+ years … required/needed/minimum" (either order) OR of the third
source pattern "N years in/of/with" — in that priority order — and only when
none of the three matches does it fall back to the seniority keywords
(senior/lead/principal → 5, mid-level/intermediate → 3, junior/entry/graduate
→ 1, in that priority), else it is undetermined.  The spec's own example
(`Senior` with no explicit number → 5) evaluates last. -/
theorem extract_required_years_characterization :
    (∀ text : String,
      (∀ n, searchFirst matchYearsReqAt (lowerChars text).length (lowerChars text) = some n →
        extract_required_years text = some n) ∧
      (searchFirst matchYearsReqAt (lowerChars text).length (lowerChars text) = none →
        ∀ n, searchFirst matchReqYearsAt (lowerChars text).length (lowerChars text) = some n →
          extract_required_years text = some n) ∧
      (searchFirst matchYearsReqAt (lowerChars text).length (lowerChars text) = none →
        searchFirst matchReqYearsAt (lowerChars text).length (lowerChars text) = none →
        ∀ n, searchFirst matchYearsInAt (lowerChars text).length (lowerChars text) = some n →
          extract_required_years text = some n) ∧
      (searchFirst matchYearsReqAt (lowerChars text).length (lowerChars text) = none →
        searchFirst matchReqYearsAt (lowerChars text).length (lowerChars text) = none →
        searchFirst matchYearsInAt (lowerChars text).length (lowerChars text) = none →
          (kwAny kwSenior (lowerChars text) = true →
            extract_required_years text = some 5) ∧
          (kwAny kwSenior (lowerChars text) = false →
            kwAny kwMid (lowerChars text) = true →
            extract_required_years text = some 3) ∧
          (kwAny kwSenior (lowerChars text) = false →
            kwAny kwMid (lowerChars text) = false →
            kwAny kwJunior (lowerChars text) = true →
            extract_required_years text = some 1) ∧
          (kwAny kwSenior (lowerChars text) = false →
            kwAny kwMid (lowerChars text) = false →
            kwAny kwJunior (lowerChars text) = false →
            extract_required_years text = none))) ∧
    extract_required_years ("Looking for a Senior engineer") = some 5 := by
  constructor
  · intro text
    refine ⟨?_, ?_, ?_, ?_⟩
    · intro n h
      simp only [extract_required_years, h]
    · intro h1 n h2
      simp only [extract_required_years, h1, h2]
    · intro h1 h2 n h3
      simp only [extract_required_years, h1, h2, h3]
    · intro h1 h2 h3
      refine ⟨?_, ?_, ?_, ?_⟩
      · intro hs
        simp only [extract_required_years, h1, h2, h3, hs, if_true]
      · intro hs hm
        simp only [extract_required_years, h1, h2, h3, hs, hm]
        rfl
      · intro hs hm hj
        simp only [extract_required_years, h1, h2, h3, hs, hm, hj]
        rfl
      · intro hs hm hj
        simp only [extract_required_years, h1, h2, h3, hs, hm, hj]
        rfl
  · decide

/-- C4 witness: the characterization applied at a concrete text with no
year pattern and a seniority keyword. -/
theorem extract_required_years_characterization_witness :
    extract_required_years ("senior engineer wanted") = some 5 :=
  ((extract_required_years_characterization.1 ("senior engineer wanted")).2.2.2
    (by decide) (by decide) (by decide)).1 (by decide)

/-- C4 counterexample: `"3 years in python"` matches the source's third
pattern `(\d+)\+?\s*years?\s*(?:in|of|with)` — which the claim omits — so the
source answers 3 years while the claim (patterns "N+ years …
required/needed/minimum" in either order, then seniority keywords, else
absent) demands `absent`. -/
theorem extract_required_years_third_pattern :
    extract_required_years ("3 years in python") = some 3 ∧
    extractRequiredYearsClaim ("3 years in python") = none ∧
    extract_required_years ("3 years in python") ≠
      extractRequiredYearsClaim ("3 years in python") := by
  refine ⟨by decide, by decide, by decide⟩

/-- C5 (amended): the skill sub-score is exactly 70.0 when no
reference-vocabulary skill is found in the job's DESCRIPTION (not its full
comparison text), and otherwise is the percentage of those required skills
found (case-insensitive substring) in the résumé's skill list or raw text;
in particular the spec's own example (résumé skills Python and AWS, job
description mentioning only python and docker) yields 50.0. -/
theorem skill_score_characterization :
    (∀ (cv : CvData) (job : Job),
      (required_skills job.description = [] → calculate_skill_match cv job = 70) ∧
      (required_skills job.description ≠ [] →
        calculate_skill_match cv job =
          (((required_skills job.description).filter (skill_found cv)).length : ℚ) /
            ((required_skills job.description).length : ℚ) * 100) ∧
      0 ≤ calculate_skill_match cv job ∧ calculate_skill_match cv job ≤ 100) ∧
    calculate_skill_match cvEx jobEx = 50 := by
  constructor
  · intro cv job
    refine ⟨?_, ?_, (calculate_skill_match_bounds cv job).1,
      (calculate_skill_match_bounds cv job).2⟩
    · intro h
      simp [calculate_skill_match, h]
    · intro h
      simp [calculate_skill_match, h]
  · decide

/-- C5 witness: the characterization applied at a job with no vocabulary
skill in its description. -/
theorem skill_score_characterization_witness :
    calculate_skill_match cv5 job5 = 70 :=
  (skill_score_characterization.1 cv5 job5).1 (by decide)

/-- C5 counterexample: the claim reads the neutral-70 condition against the
job's comparison text (the spec's `jobText`: title twice, stripped
description, company).  For a job whose title mentions `python` but whose
description mentions no vocabulary skill, the source returns 70.0 (it reads
only the description) while the spec-worded score is 100.0. -/
theorem skill_score_uses_description_only :
    calculate_skill_match cv5 job5 = 70 ∧
    skillScoreSpec cv5 job5 = 100 ∧
    calculate_skill_match cv5 job5 ≠ skillScoreSpec cv5 job5 := by
  refine ⟨by decide, by decide, by decide⟩

/-- C6: the similarity computation is total over every behaviour of the
external vectorizer: it returns the scaled cosine when vectorization
succeeds and the neutral 50.0 whenever it fails — and with the
spec-modelled vectorizer (which fails exactly on documents empty after
stop-word removal, hence in particular on two empty texts) every degenerate
input yields 50.0. -/
theorem tfidf_similarity_total_fallback :
    ∀ (sim : String → String → Option ℚ) (a b : String),
      ((sim a b = none ∧ calculate_tfidf_similarity sim a b = 50) ∨
        (∃ c, sim a b = some c ∧ calculate_tfidf_similarity sim a b = c * 100)) ∧
      (∀ (stop : List String) (cos : String → String → ℚ),
        nonStopTokens stop a = [] ∨ nonStopTokens stop b = [] →
          calculate_tfidf_similarity (tfidfVectorize stop cos) a b = 50) := by
  intro sim a b
  constructor
  · cases h : sim a b with
    | none => exact Or.inl ⟨rfl, by simp [calculate_tfidf_similarity, h]⟩
    | some c => exact Or.inr ⟨c, rfl, by simp [calculate_tfidf_similarity, h]⟩
  · intro stop cos hdeg
    simp only [calculate_tfidf_similarity, tfidfVectorize, if_pos hdeg]

/-- C6 witness: both documents empty — vectorization fails on the empty
vocabulary and the caller still receives the neutral 50.0. -/
theorem tfidf_similarity_total_fallback_witness :
    calculate_tfidf_similarity (tfidfVectorize [] (fun _ _ => 0)) ("") ("") = 50 :=
  (tfidf_similarity_total_fallback (tfidfVectorize [] (fun _ _ => 0)) ("") ("")).2
    [] (fun _ _ => 0) (Or.inl (by decide))

/-- C7: the salary keep-decision is exactly range overlap — a job passes iff
both its salary bounds are absent, or neither "job max below requested min"
nor "job min above requested max" holds (each check needing both its
operands) — and a job missing both salary bounds is never excluded by the
salary filter. -/
theorem salary_filter_range_overlap :
    ∀ (min_salary max_salary : Option ℚ) (job : Job),
      (salary_passes min_salary max_salary job = true ↔
        (job.salary_min = none ∧ job.salary_max = none) ∨
        ((¬ ∃ m jM, min_salary = some m ∧ job.salary_max = some jM ∧ jM < m) ∧
          (¬ ∃ mx jm, max_salary = some mx ∧ job.salary_min = some jm ∧ mx < jm))) ∧
      ∀ jobs : List Job, job ∈ jobs → job.salary_min = none → job.salary_max = none →
        job ∈ filter_by_salary min_salary max_salary jobs := by
  intro ms xs job
  constructor
  · cases hmin : job.salary_min <;> cases hmax : job.salary_max <;>
      cases ms <;> cases xs <;>
      simp [salary_passes, hmin, hmax, not_lt]
  · intro jobs hmem hmin hmax
    unfold filter_by_salary
    split_ifs with hb
    · exact hmem
    · exact List.mem_filter.mpr ⟨hmem, by simp [salary_passes, hmin, hmax]⟩

/-- C7 witness: a job with no salary data survives an active `50–60` salary
criterion. -/
theorem salary_filter_range_overlap_witness :
    ({} : Job) ∈ filter_by_salary (some 50) (some 60) [({} : Job)] :=
  (salary_filter_range_overlap (some 50) (some 60) ({} : Job)).2
    [({} : Job)] (List.mem_singleton.mpr rfl) rfl rfl

/-- C8: filtering with an absent `FilterCriteria` (every key missing), or an
empty-but-present one (empty lists, empty string, zero numerics — all falsy),
excludes nothing: the result is exactly the input re-sorted by the default
key (match score descending), a permutation of the input. -/
theorem empty_filters_only_resort :
    ∀ (parse : String → Option Int) (now : Int) (jobs : List Job),
      filter_and_rank parse now jobs emptyFilters = sortDesc scoreKey jobs ∧
      (filter_and_rank parse now jobs emptyFilters).Perm jobs ∧
      filter_and_rank parse now jobs emptyishFilters = sortDesc scoreKey jobs ∧
      (filter_and_rank parse now jobs emptyishFilters).Perm jobs := by
  intro parse now jobs
  have h1 : filter_and_rank parse now jobs emptyFilters = sortDesc scoreKey jobs := rfl
  have h2 : filter_and_rank parse now jobs emptyishFilters = sortDesc scoreKey jobs := rfl
  refine ⟨h1, ?_, h2, ?_⟩
  · rw [h1]; exact sortDesc_perm scoreKey jobs
  · rw [h2]; exact sortDesc_perm scoreKey jobs

/-- C9: both match-score sorts — the batch sort at the end of
`JobMatcher.match_jobs` and the `match_score` branch of
`JobRanker._sort_jobs` — are stable: for every score value `v`, the
subsequence of jobs with that score is unchanged (equal scores keep their
original relative order); the output is a permutation of the input, sorted
descending by score. -/
theorem score_sorts_stable :
    ∀ (jobs : List Job) (v : ℚ),
      (sort_jobs sMatchScore jobs).filter (fun j => decide (scoreKey j = v)) =
        jobs.filter (fun j => decide (scoreKey j = v)) ∧
      (sort_jobs sMatchScore jobs).Perm jobs ∧
      (sort_jobs sMatchScore jobs).Pairwise (fun a b => scoreKey b ≤ scoreKey a) ∧
      ∀ (sim : String → String → Option ℚ) (cv : CvData),
        (match_jobs sim cv jobs).filter (fun j => decide (scoreKey j = v)) =
          (jobs.map (score_job sim cv)).filter (fun j => decide (scoreKey j = v)) := by
  intro jobs v
  have hs : sort_jobs sMatchScore jobs = sortDesc scoreKey jobs := rfl
  refine ⟨?_, ?_, ?_, ?_⟩
  · rw [hs]; exact filter_sortDesc scoreKey v jobs
  · rw [hs]; exact sortDesc_perm scoreKey jobs
  · rw [hs]; exact sortDesc_sorted scoreKey jobs
  · intro sim cv
    exact filter_sortDesc scoreKey v (jobs.map (score_job sim cv))

/-- C10: `filter_and_rank` never mutates the caller's list object — the heap
cell passed in reads the same after the call, for every filter combination —
and the returned (fresh) cell holds exactly the value-level
`filter_and_rank` result; `match_jobs`, by contrast, reorders the caller's
own list object in place (shown at a concrete two-job heap where the scored
order differs from the input order). -/
theorem filter_and_rank_preserves_input :
    (∀ (parse : String → Option Int) (now : Int) (h : List (List Job))
        (r : Nat) (f : Filters), r < h.length →
      readH (filter_and_rank_heap parse now h r f).1 r = readH h r ∧
      readH (filter_and_rank_heap parse now h r f).1
          (filter_and_rank_heap parse now h r f).2 =
        filter_and_rank parse now (readH h r) f) ∧
    readH (match_jobs_heap simNone cvT [[jobT1, jobT2]] 0) 0 ≠ [jobT1, jobT2] := by
  constructor
  · intro parse now h r f hr
    obtain ⟨a1, a2, a3, a4⟩ := runStages_spec (stageActs parse now f)
      (h ++ [readH h r], h.length) h.length (le_refl _) (by simp)
    dsimp only at a1 a2 a3 a4
    have hfr : filter_and_rank_heap parse now h r f =
        (writeH (runStages (stageActs parse now f) (h ++ [readH h r], h.length)).1
          (runStages (stageActs parse now f) (h ++ [readH h r], h.length)).2
          (sort_jobs (f.sort_by.getD sMatchScore)
            (readH (runStages (stageActs parse now f) (h ++ [readH h r], h.length)).1
              (runStages (stageActs parse now f) (h ++ [readH h r], h.length)).2)),
         (runStages (stageActs parse now f) (h ++ [readH h r], h.length)).2) := rfl
    rw [hfr]
    constructor
    · rw [readH_writeH_ne _ _ r _ (by omega)]
      rw [a3 r hr]
      exact readH_append_lt h _ r hr
    · rw [readH_writeH_self _ _ _ a2]
      rw [a4, readH_append_len]
      rfl
  · decide

/-- C10 witness: the frame property applied at a concrete one-cell heap. -/
theorem filter_and_rank_preserves_input_witness :
    readH (filter_and_rank_heap parseNone 0 [[jobT1]] 0 emptyFilters).1 0 =
      readH [[jobT1]] 0 :=
  (filter_and_rank_preserves_input.1 parseNone 0 [[jobT1]] 0 emptyFilters
    (by decide)).1

end JobMatch
